import Mathlib

/-!
Verification of the databroker core (`databroker/broker.py`) against its
natural-language specification.

The development shallowly embeds the Python source: Python dicts become
insertion-ordered association lists, generators become explicit list
processing, raised exceptions become `Except` errors, and the collaborating
metadata store and file store (which live outside this repository) are
modelled from the interface the spec assigns them.  Wall-clock timestamps
(`time.time()`) and uuid generation are abstracted to a deterministic
counter-based supply; no claim constrains their values.
-/

/-! ## Python-style dictionaries

Python dicts keep insertion order; `update`/`__setitem__` replace the value
of an existing key in place and append new keys at the end.  We model a dict
as an insertion-ordered association list with string keys. -/

abbrev Dict (α : Type) : Type := List (String × α)

/-- Lookup `d[k]`, `none` when the key is absent. -/
def Dict.get? {α : Type} (d : Dict α) (k : String) : Option α :=
  (d.find? (fun p => p.1 == k)).map (fun p => p.2)

/-- Whether the key is present. -/
def Dict.hasKey {α : Type} (d : Dict α) (k : String) : Bool :=
  d.any (fun p => p.1 == k)

/-- Assignment `d[k] = v`: replace the binding of `k` if present, else append it. -/
def Dict.insert {α : Type} (d : Dict α) (k : String) (v : α) : Dict α :=
  if d.any (fun p => p.1 == k) then
    d.map (fun p => if p.1 == k then (k, v) else p)
  else
    d ++ [(k, v)]

/-- Update `d.update(u)`: fold `u` into `d` binding by binding. -/
def Dict.update {α : Type} (d u : Dict α) : Dict α :=
  u.foldl (fun acc p => acc.insert p.1 p.2) d

/-- Removal `d.pop(k, None)`: drop every binding of `k`. -/
def Dict.eraseKey {α : Type} (d : Dict α) (k : String) : Dict α :=
  d.filter (fun p => p.1 != k)

/-- Document field values.  The claims only ever compare values for equality,
so a small closed universe suffices. -/
inductive Val : Type where
  | s : String → Val
  | n : Nat → Val
  | b : Bool → Val
deriving DecidableEq, Repr

/-! ## Run Locator (`search` in `broker.py`, lines 170-267)

The metadata-store collaborator is not part of this repository; per spec §6
it provides `find_last(n)` (most-recent-first) and `find_run_starts(query)`.
We model its run-start collection as a most-recent-first list. -/

/-- A RunStart record as the locator sees it. -/
structure RunStart where
  uid : String
  scan_id : Int
deriving DecidableEq, Repr

/-- Modelled from the spec (§6): the metadata-store collaborator.  Its
run starts are held most-recent-first, matching the order `find_last`
yields them in. -/
structure MDS where
  runs : List RunStart
deriving DecidableEq, Repr

/-- Modelled from the spec (§6): `find_last(n)` returns the `n` most recent
run starts, most-recent-first. -/
def MDS.find_last (mds : MDS) (n : Nat) : List RunStart :=
  mds.runs.take n

/-- Modelled from the spec (§6): `find_run_starts(scan_id=k)`, results
most-recent-first (the source takes `next(gen)` as "most recent match"). -/
def MDS.find_run_starts_scan_id (mds : MDS) (k : Int) : List RunStart :=
  mds.runs.filter (fun r => r.scan_id == k)

/-- Modelled from the spec (§6): `find_run_starts(uid=key)`, an exact-uid
query. -/
def MDS.find_run_starts_uid (mds : MDS) (key : String) : List RunStart :=
  mds.runs.filter (fun r => r.uid == key)

/-- Modelled from the spec (§4.1): the partial-identifier query the source
issues as `find_run_starts(uid=regex(key + ".*"))`; the spec reads it as a
match of `key` against the identifiers as a leading fragment (stated on the
character lists so that it evaluates by kernel reduction). -/
def MDS.find_run_starts_uid_partialMatch (mds : MDS) (key : String) : List RunStart :=
  mds.runs.filter (fun r => key.data.isPrefixOf r.uid.data)

/-- Modelled from the spec (§3): `Header.from_run_start` lives in
`databroker.core`, which is not among the sources here.  The spec describes
a Header as the read-only aggregate of one run; for the locator claims only
the identity of the underlying run matters, so the model keeps the Start. -/
structure Header where
  start : RunStart
deriving DecidableEq, Repr

def Header.from_run_start (r : RunStart) : Header := ⟨r⟩

/-- The errors the locator raises.  Every constructor mirrors one `raise` in
the source; the payloads record what the corresponding message interpolates. -/
inductive LocErr : Type where
  /-- A `ValueError`: "slice.start must be negative ... the offending part is
  key.start = s". -/
  | sliceStartNonNegative (start : Int)
  /-- A `ValueError`: "slice.stop must be <= 0 ... the offending part is
  key.stop = t". -/
  | sliceStopPositive (stop : Int)
  /-- A `ValueError`: "slice.start cannot be None ...". -/
  | sliceStartNone
  /-- A `ValueError` raised by Python list slicing when the step is zero. -/
  | sliceStepZero
  /-- A `ValueError`: "No such run found for key=k which is being interpreted
  as a scan id." -/
  | noSuchScanId (key : Int)
  /-- An `IndexError`: "There are only i runs." -/
  | indexError (available : Nat)
  /-- A `ValueError`: "No such run found for key=k". -/
  | noSuchRun (key : String)
  /-- A `ValueError`: "key=k matches c runs. Provide more characters." -/
  | ambiguous (key : String) (count : Nat)
  /-- unreachable unpacking failure of `result, = results`. -/
  | unpackFailed
deriving DecidableEq, Repr

/-- A Python `slice(start, stop, step)` key. -/
structure PySlice where
  start : Option Int
  stop : Option Int
  step : Option Int
deriving DecidableEq, Repr

/-- Indices selected by Python list slicing `L[a::s]` for positive step `s`:
`a, a+s, a+2s, ...` below `len`. -/
def pySlicePosIdxs (len a s : Nat) : List Nat :=
  (List.range len).filter (fun i => a ≤ i && (i - a) % s == 0)

/-- Indices selected by Python list slicing for negative step of magnitude
`s`, starting from index `st`: `st, st-s, st-2s, ...` down to `0`, listed in
traversal (descending) order. -/
def pySliceNegIdxs (len st s : Nat) : List Nat :=
  ((List.range len).filter (fun i => i ≤ st && (st - i) % s == 0)).reverse

/-- Python `L[a::s]` with `a` a non-negative (or omitted) start index and
`s` an optional step; a zero step raises `ValueError`. -/
def pySliceFrom {α : Type} (a : Option Nat) (step : Option Int) (L : List α) :
    Except LocErr (List α) :=
  match step with
  | none => .ok (L.drop (a.getD 0))
  | some s =>
    if s = 0 then .error .sliceStepZero
    else if 0 < s then
      .ok ((pySlicePosIdxs L.length (a.getD 0) s.toNat).filterMap (fun i => L.get? i))
    else
      let st := match a with
        | none => L.length - 1
        | some av => min av (L.length - 1)
      .ok ((pySliceNegIdxs L.length st (-s).toNat).filterMap (fun i => L.get? i))

/-- The `slice`-registered branch of `search` (broker.py lines 180-204).
The source computes `stop = -key.stop` (or `None`), `start = -key.start`,
and returns `list(mds.find_last(start))[stop::key.step]` materialized as
Headers. -/
def search_slice (key : PySlice) (mds : MDS) : Except LocErr (List Header) :=
  if (match key.start with | some s => decide (s > -1) | none => false) then
    .error (.sliceStartNonNegative (key.start.getD 0))
  else if (match key.stop with | some t => decide (t > 0) | none => false) then
    .error (.sliceStopPositive (key.stop.getD 0))
  else
    let stp : Option Nat := key.stop.map (fun t => (-t).toNat)
    match key.start with
    | none => .error .sliceStartNone
    | some s =>
      let start := (-s).toNat
      (pySliceFrom stp key.step (mds.find_last start)).map
        (fun L => L.map Header.from_run_start)

/-- The source's `for i in range(n): result = next(gen)` loop over the
`find_last` generator: `remaining` counts iterations still to run, `i` the
iterations already completed.  Exhausting the generator at iteration `i`
raises `IndexError("There are only i runs")`; completing all iterations
leaves the last pulled element. -/
def pull_nth (gen : List RunStart) (i : Nat) (remaining : Nat) :
    Except LocErr RunStart :=
  match remaining, gen with
  | 0, _ => .error (.indexError i)
  | _ + 1, [] => .error (.indexError i)
  | 1, r :: _ => .ok r
  | m + 2, _ :: rest => pull_nth rest (i + 1) (m + 1)

/-- The `numbers.Integral`-registered branch of `search` (broker.py lines
207-229).  Non-negative keys are scan ids (most recent match); negative keys
mean "the `|key|`-th most recent run". -/
def search_integral (key : Int) (mds : MDS) : Except LocErr Header :=
  if key > -1 then
    match mds.find_run_starts_scan_id key with
    | [] => .error (.noSuchScanId key)
    | r :: _ => .ok (Header.from_run_start r)
  else
    match pull_nth (mds.find_last (-key).toNat) 0 (-key).toNat with
    | .error e => .error e
    | .ok r => .ok (Header.from_run_start r)

/-- The `str`-registered branch of `search` (broker.py lines 232-258): a
36-character key is first tried as a complete uid; failing that (or for any
other length) it is tried as a partial uid; zero or several matches raise,
exactly one resolves. -/
def search_str (key : String) (mds : MDS) : Except LocErr Header :=
  let results := if key.length = 36 then mds.find_run_starts_uid key else []
  let results := if results = [] then mds.find_run_starts_uid_partialMatch key else results
  if results = [] then .error (.noSuchRun key)
  else if 1 < results.length then .error (.ambiguous key results.length)
  else
    match results with
    | [r] => .ok (Header.from_run_start r)
    | _ => .error .unpackFailed

/-- The runs a string key matches, as claim C7 describes them: the exact-uid
matches when the key has canonical length 36 and any exist, otherwise the
partial-identifier matches. -/
def strMatches (key : String) (mds : MDS) : List RunStart :=
  let exact := if key.length = 36 then mds.find_run_starts_uid key else []
  if exact = [] then mds.find_run_starts_uid_partialMatch key else exact

/-! ## Stream Map Operator (`event_map`, broker.py lines 986-1066)

The decorated generator is embedded as explicit list processing: the
generator's local variables become an explicit state record, `yield` appends
to the output list, and `raise` terminates processing with an error.
`uuid.uuid4()` is modelled as a counter-driven fresh-name supply and
`time.time()` as the constant `now` (no claim constrains either value). -/

/-- Deterministic stand-in for `str(uuid.uuid4())`. -/
def fresh (n : Nat) : String := "new-" ++ toString n

/-- Stand-in for `time.time()`. -/
def now : Nat := 0

/-- An incoming Start document: `event_map` reads only its `uid`. -/
structure StartDoc where
  uid : String
  rest : Dict Val
deriving DecidableEq, Repr

/-- An incoming Descriptor document.  `doc.get(name)` may be absent, hence
`Option`. -/
structure DescDoc where
  uid : String
  name : Option String
  data_keys : Dict (Dict Val)
  rest : Dict Val
deriving DecidableEq, Repr

/-- An Event document (input and output shape).  `descriptor` is `none` when
the Python field holds `None`, in which case `doc_or_uid_to_uid` raises
`TypeError`. -/
structure EvDoc where
  uid : String
  descriptor : Option String
  data : Dict Val
  timestamps : Dict Val
  rest : Dict Val
deriving DecidableEq, Repr

/-- An incoming Stop document: `event_map` reads none of its fields. -/
structure StopDoc where
  uid : String
  rest : Dict Val
deriving DecidableEq, Repr

/-- One element of the incoming `(name, document)` stream; the constructor
is the `name` tag, `other` covers any unrecognized name (no branch of the
source matches it). -/
inductive InDoc : Type where
  | start : StartDoc → InDoc
  | descriptor : DescDoc → InDoc
  | event : EvDoc → InDoc
  | stop : StopDoc → InDoc
  | other : String → Dict Val → InDoc
deriving DecidableEq, Repr

/-- One element of the outgoing stream, with exactly the fields the source
builds for each freshly constructed document. -/
inductive OutDoc : Type where
  | start (uid : String) (time : Nat) (parents : List String) (provenance : Dict Val)
  | descriptor (uid : String) (time : Nat) (run_start : String)
      (data_keys : Dict (Dict Val)) (name : String)
  | event : EvDoc → OutDoc
  | stop (uid : String) (time : Nat) (run_start : String) (exit_status : String)
deriving DecidableEq, Repr

/-- The generator's local variables.  `newDescriptorUid`/`newDataKeys` model
the Python locals `new_descriptor_uid`/`new_data_keys`, which are unbound
(`none`) until the first matching Descriptor is processed; `ctr` drives the
fresh-uid supply. -/
structure EMState where
  runStartUid : Option String
  descriptorUid : Option String
  newDescriptorUid : Option String
  newDataKeys : Option (Dict (Dict Val))
  ctr : Nat
deriving DecidableEq, Repr

def EMState.init : EMState :=
  { runStartUid := none, descriptorUid := none, newDescriptorUid := none,
    newDataKeys := none, ctr := 0 }

/-- Errors with which the stream processing can abort; each mirrors one
exception path of the source. -/
inductive EMErr : Type where
  /-- The `RuntimeError("Received EventDescriptor before RunStart.")` path. -/
  | descriptorBeforeStart
  /-- The `RuntimeError("Received Event before RunStart.")` path. -/
  | eventBeforeStart
  /-- The `RuntimeError("Received RunStop before RunStart.")` path. -/
  | stopBeforeStart
  /-- the exception from the per-event try-block, re-raised after the
  failure Stop was emitted; the payload is the original message. -/
  | transformRaised (msg : String)
  /-- A `TypeError` from `doc_or_uid_to_uid(None)`. -/
  | typeErrorNoneDescriptor
deriving DecidableEq, Repr

/-- The body of the per-event loop `for data_key in new_data_keys:
new_event.data[data_key] = f(doc.data[data_key])`: reads come from the
original `doc.data`, writes go to the copied dict; a missing key raises
`KeyError`, and a raising transform propagates. -/
def transformAll (f : Val → Except String Val) (ndk : Dict (Dict Val))
    (data : Dict Val) : Except String (Dict Val) :=
  ndk.foldl
    (fun acc kv =>
      match acc with
      | .error e => .error e
      | .ok accd =>
        match data.get? kv.1 with
        | none => .error ("KeyError: " ++ kv.1)
        | some v =>
          match f v with
          | .error e => .error e
          | .ok nv => .ok (accd.insert kv.1 nv))
    (.ok data)

/-- The try-block of the event branch: copy the document, assign a fresh
uid, reference the derived descriptor (`NameError` if `new_descriptor_uid`
or `new_data_keys` is still unbound), and transform the configured data. -/
def emTry (f : Val → Except String Val) (st : EMState) (ev : EvDoc) :
    Except String EvDoc :=
  let nuid := fresh st.ctr
  match st.newDescriptorUid with
  | none => .error "NameError: new_descriptor_uid"
  | some nd =>
    match st.newDataKeys with
    | none => .error "NameError: new_data_keys"
    | some ndk =>
      match transformAll f ndk ev.data with
      | .error msg => .error msg
      | .ok newData =>
        .ok { ev with uid := nuid, descriptor := some nd, data := newData }

/-- One iteration of the `for name, doc in stream` loop of the function
returned by `event_map`.  `.error (outs, e)` means the documents `outs` were
yielded and then the exception `e` was raised, ending the generator. -/
def emStep (sn : String) (prov : Dict Val) (f : Val → Except String Val)
    (st : EMState) (d : InDoc) :
    Except (List OutDoc × EMErr) (List OutDoc × EMState) :=
  match d with
  | .start s =>
    let uid := fresh st.ctr
    .ok ([.start uid now [s.uid] prov],
         { st with runStartUid := some uid, ctr := st.ctr + 1 })
  | .descriptor dd =>
    if dd.name = some sn then
      match st.runStartUid with
      | none => .error ([], .descriptorBeforeStart)
      | some ru =>
        -- `new_data_keys = dict(doc.data_keys)` followed by
        -- `for k, v in new_data_keys.items(): new_data_keys[k].update(v)`:
        -- each original schema is updated with itself.
        let ndk := dd.data_keys.map (fun kv => (kv.1, Dict.update kv.2 kv.2))
        let nuid := fresh st.ctr
        .ok ([.descriptor nuid now ru ndk sn],
             { st with descriptorUid := some dd.uid,
                       newDataKeys := some ndk,
                       newDescriptorUid := some nuid,
                       ctr := st.ctr + 1 })
    else .ok ([], st)
  | .event ev =>
    match ev.descriptor with
    | none => .error ([], .typeErrorNoneDescriptor)
    | some dsc =>
      if st.descriptorUid = some dsc then
        match st.runStartUid with
        | none => .error ([], .eventBeforeStart)
        | some ru =>
          match emTry f st ev with
          | .ok ne => .ok ([.event ne], { st with ctr := st.ctr + 1 })
          | .error msg =>
            .error ([.stop (fresh (st.ctr + 1)) now ru "failure"],
                    .transformRaised msg)
      else .ok ([], st)
  | .stop _ =>
    match st.runStartUid with
    | none => .error ([], .stopBeforeStart)
    | some ru =>
      .ok ([.stop (fresh st.ctr) now ru "success"],
           { st with runStartUid := none, descriptorUid := none,
                     ctr := st.ctr + 1 })
  | .other _ _ => .ok ([], st)

/-- Run the generator over a whole input stream from state `st`, collecting
the yielded documents and the exception, if any, that ended the stream. -/
def emRun (sn : String) (prov : Dict Val) (f : Val → Except String Val)
    (st : EMState) : List InDoc → List OutDoc × Option EMErr
  | [] => ([], none)
  | d :: ds =>
    match emStep sn prov f st d with
    | .error (outs, e) => (outs, some e)
    | .ok (outs, st') =>
      let r := emRun sn prov f st' ds
      (outs ++ r.1, r.2)

/-- The operator `event_map(stream_name, data_keys, provenance)(f)(stream)`.  The
`data_keys` parameter is accepted but — exactly as in the source — never
read by the implementation (its documented schema-update role is the
subject of claim C2). -/
def event_map (stream_name : String) (data_keys : Dict (Dict Val))
    (provenance : Dict Val) (f : Val → Except String Val)
    (stream : List InDoc) : List OutDoc × Option EMErr :=
  emRun stream_name provenance f EMState.init stream

/-- The schema update the spec describes for the emitted Descriptor: each
configured schema-update fragment merged into the corresponding original
field's schema.  (Stated from the spec's words, to be compared with the
source's behaviour; fields the original lacks are untouched.) -/
def specMergeDataKeys (cfg dks : Dict (Dict Val)) : Dict (Dict Val) :=
  cfg.foldl
    (fun acc kv =>
      match acc.get? kv.1 with
      | some sch => acc.insert kv.1 (Dict.update sch kv.2)
      | none => acc)
    dks

/-- The state-machine invariant behind claim C9: whenever no derived run is
active, no source descriptor is remembered as active either. -/
def EMInv (st : EMState) : Prop :=
  st.runStartUid = none → st.descriptorUid = none

/-- All Event documents of a stream carry an actual descriptor reference
(their `descriptor` field is not Python `None`). -/
def eventsHaveDescriptors (stream : List InDoc) : Prop :=
  ∀ ev : EvDoc, InDoc.event ev ∈ stream → ev.descriptor.isSome

/-- Referential-integrity checker for an emitted stream (claim C10):
scanning left to right while carrying the uid of the most recently emitted
Start (`ls`) and Descriptor (`ld`), every Descriptor and Stop must reference
the current `ls` and every Event the current `ld`. -/
def refOk : Option String → Option String → List OutDoc → Bool
  | _, _, [] => true
  | _, ld, .start u _ _ _ :: rest => refOk (some u) ld rest
  | ls, _, .descriptor u _ rs _ _ :: rest =>
    (some rs == ls) && refOk ls (some u) rest
  | ls, ld, .event e :: rest =>
    (match ld with
     | some d => e.descriptor == some d
     | none => false) && refOk ls ld rest
  | ls, ld, .stop _ _ rs _ :: rest => (some rs == ls) && refOk ls ld rest

/-! ## External Store Interceptor (`store_dec`, broker.py lines 907-983)

The wrapped generator receives `(name, doc)` pairs, inserts a "persisted"
variant of each document into the metadata store, and yields the original.
`fs_doc = dict(doc)` is a SHALLOW copy: the nested `data_keys` and schema
dicts stay shared between `fs_doc` and `doc`, so in-place updates of those
nested dicts are visible through both.  The embedding reproduces exactly
that sharing.  A writer is modelled as a counter-driven reference-id issuer
(its externally visible behaviour: `write(value) -> reference_id`). -/

/-- A document as `store_dec` manipulates it: the two nested mappings it
touches are explicit, `filled` is the annotation it manages, and `rest`
holds every other top-level field (among them `_name`, which the persisted
copy pops). -/
structure SDDoc where
  data_keys : Dict (Dict Val)
  data : Dict Val
  filled : Option (Dict Bool)
  rest : Dict Val
deriving DecidableEq, Repr

/-- Generator state of the wrapped function: the writer dict (`none` until
the first `start` document binds the local variable `writers`; its entries
are the configured data keys) and the reference-id counter. -/
structure SDState where
  writers : Option (List String)
  ctr : Nat
deriving DecidableEq, Repr

/-- A `NameError`: an `event` or `stop` arrived before any `start` bound the
`writers` local. -/
inductive SDErr : Type where
  | nameErrorWriters
deriving DecidableEq, Repr

/-- The result of draining a stream through the interceptor: the pairs
yielded to the caller, the documents inserted into the metadata store, and
the exception (if any) that ended the stream. -/
structure SDResult where
  emitted : List (String × SDDoc)
  inserted : List (String × SDDoc)
  err : Option SDErr
deriving DecidableEq, Repr

/-- What `db.mds.insert(name, fs_doc)` receives: the persisted variant with
`filled` and `_name` popped. -/
def sdPersist (d : SDDoc) : SDDoc :=
  { d with filled := none, rest := d.rest.eraseKey "_name" }

/-- The descriptor annotation loop: for every configured data key present in
`data_keys`, update that key's schema with `external='FILESTORE:'`.  Because
of the shallow copy this mutation is observable through the emitted copy as
well. -/
def sdAnnotate (ext : List String) (dks : Dict (Dict Val)) : Dict (Dict Val) :=
  ext.foldl
    (fun acc k =>
      match acc.get? k with
      | some sch => acc.insert k (sch.insert "external" (Val.s "FILESTORE:"))
      | none => acc)
    dks

/-- The event write-out loop: for every writer's data key present in the
event's data, `writer.write(value)` issues a reference id that replaces the
value in the persisted copy only. -/
def sdWriteData (ws : List String) (data : Dict Val) (ctr : Nat) :
    Dict Val × Nat :=
  ws.foldl
    (fun acc k =>
      if (data.get? k).isSome then
        (acc.1.insert k (Val.s ("datum-" ++ toString acc.2)), acc.2 + 1)
      else acc)
    (data, ctr)

/-- One iteration of the interceptor's loop: returns the yielded pair, the
inserted pair and the next state, or the exception that ended the stream. -/
def sdStep (ext : List String) (st : SDState) (nd : String × SDDoc) :
    Except SDErr ((String × SDDoc) × (String × SDDoc) × SDState) :=
  let name := nd.1
  let doc := nd.2
  let st1 := if name = "start" then { st with writers := some ext } else st
  if name = "descriptor" then
    let dks := sdAnnotate ext doc.data_keys
    -- the nested schema dicts are shared: the annotation lands on the
    -- emitted copy too.
    let doc2 := { doc with data_keys := dks }
    .ok ((name, doc2), (name, sdPersist doc2), st1)
  else if name = "event" then
    match st1.writers with
    | none => .error .nameErrorWriters
    | some ws =>
      let wr := sdWriteData ws doc.data st1.ctr
      let fsd := { doc with data := wr.1 }
      let doc2 := { doc with filled := some (ext.map (fun k => (k, false))) }
      .ok ((name, doc2), (name, sdPersist fsd), { st1 with ctr := wr.2 })
  else if name = "stop" then
    match st1.writers with
    | none => .error .nameErrorWriters
    | some _ => .ok ((name, doc), (name, sdPersist doc), { st1 with writers := some [] })
  else
    .ok ((name, doc), (name, sdPersist doc), st1)

/-- Drain a whole stream through the interceptor. -/
def sdRun (ext : List String) (st : SDState) :
    List (String × SDDoc) → SDResult
  | [] => ⟨[], [], none⟩
  | nd :: rest =>
    match sdStep ext st nd with
    | .error e => ⟨[], [], some e⟩
    | .ok (em, ins, st') =>
      let r := sdRun ext st' rest
      ⟨em :: r.emitted, ins :: r.inserted, r.err⟩

/-- The interceptor `store_dec(db, external_writers)` applied to a document stream, with the
configured writer keys `ext` (in configuration order). -/
def store_dec (ext : List String) (stream : List (String × SDDoc)) : SDResult :=
  sdRun ext ⟨none, 0⟩ stream

/-! ## Run Replicator: bulk export (`Broker.export`, lines 749-812, and
`Broker.get_resource_uids`, lines 636-664)

`get_events` and the Header aggregate live in `databroker.core` (not among
the sources); per the spec a Header aggregates one run's Start, Descriptors
and Stop, and `get_events` yields that run's Events.  The model therefore
carries the run's events inside the header record.  The file-store
collaborator is modelled by its consumed interface (spec §6). -/

/-- A Resource record of the file store. -/
structure Resource where
  uid : String
  spec : String
  resource_path : String
  resource_kwargs : Dict Val
deriving DecidableEq, Repr

/-- An exported run's Descriptor: a data key whose schema contains an
`external` entry is externally stored. -/
structure XDescriptor where
  uid : String
  data_keys : Dict (Dict Val)
  rest : Dict Val
deriving DecidableEq, Repr

/-- An exported run's Event; `filled` is the source-side annotation that the
export strips. -/
structure XEvent where
  uid : String
  descriptor : String
  data : Dict Val
  filled : Option (Dict Bool)
  rest : Dict Val
deriving DecidableEq, Repr

/-- Modelled from the spec (§3): a Header aggregate; `events` holds what
`self.get_events(header)` (in `databroker.core`) yields for this run. -/
structure XHeader where
  start : Dict Val
  descriptors : List XDescriptor
  events : List XEvent
  stop : Dict Val
deriving DecidableEq, Repr

/-- Modelled from the spec (§6): the file-store collaborator of the source
broker.  `resource_eid` maps a reference id found in event data to its
Resource; `copy_files` returns the (old path, new path) pairs of one
resource's copy step; `datum_gen` lists a resource's datum records. -/
structure FS where
  resource_eid : Val → Resource
  resource_uid : String → Resource
  copy_files : String → List (String × String)
  datum_gen : String → List (String × Dict Val)

/-- A metadata-store insertion performed by the export. -/
inductive MdsIns : Type where
  | run_start (d : Dict Val)
  | descriptor (d : XDescriptor)
  | event (e : XEvent)
  | run_stop (d : Dict Val)
deriving DecidableEq, Repr

/-- A destination file-store operation performed by the export.  The
destination assigns the re-registered Resource a fresh identifier; the model
tags the old uid deterministically. -/
inductive FsIns : Type where
  | insert_resource (spec resource_path : String) (kwargs : Dict Val)
  | insert_datum (newResourceUid datum_id : String) (kwargs : Dict Val)
deriving DecidableEq, Repr

/-- The method `Broker.get_resource_uids(header)`: collect the data keys any descriptor
flags as external, then map the matching event data values to resource uids
through the file store.  The source accumulates into a Python `set`; the
model keeps the deduplicated values. -/
def get_resource_uids (fs : FS) (h : XHeader) : List String :=
  let external_keys :=
    (h.descriptors.flatMap
      (fun d => d.data_keys.filterMap
        (fun kv => if (kv.2.get? "external").isSome then some kv.1 else none))).dedup
  (h.events.flatMap
    (fun e => e.data.filterMap
      (fun kv => if kv.1 ∈ external_keys then some (fs.resource_eid kv.2).uid
                 else none))).dedup

/-- The event inserted into the destination: `event.pop(filled, None)`. -/
def stripFilled (e : XEvent) : XEvent := { e with filled := none }

/-- Export of a single header.  The source fetches `events =
self.get_events(header)` once — a generator — and iterates it inside the
loop over descriptors, so all events are inserted while the FIRST
descriptor is processed and the generator is exhausted for the others. -/
def exportHeader (fs : FS) (h : XHeader) :
    List MdsIns × List FsIns × List (String × String) :=
  let evIns : List MdsIns := h.events.map (fun e => .event (stripFilled e))
  let mdsLog : List MdsIns :=
    .run_start h.start ::
      (match h.descriptors with
       | [] => []
       | d :: ds => .descriptor d :: (evIns ++ ds.map .descriptor)) ++
      [.run_stop h.stop]
  let ruids := get_resource_uids fs h
  let fsLog := ruids.flatMap
    (fun uid =>
      let res := fs.resource_uid uid
      FsIns.insert_resource res.spec res.resource_path res.resource_kwargs ::
        (fs.datum_gen uid).map (fun dtm => FsIns.insert_datum ("dst-" ++ uid) dtm.1 dtm.2))
  let pairs := ruids.flatMap fs.copy_files
  (mdsLog, fsLog, pairs)

/-- The method `Broker.export(headers, db, ...)` over a list of headers: performs each
header's insertions in order and accumulates the `copy_files` pairs, which
it returns.  (`export` is a reserved word in Lean, hence the name.) -/
def broker_export (fs : FS) : List XHeader → List MdsIns × List FsIns × List (String × String)
  | [] => ([], [], [])
  | h :: t =>
    let r := exportHeader fs h
    let rs := broker_export fs t
    (r.1 ++ rs.1, r.2.1 ++ rs.2.1, r.2.2 ++ rs.2.2)

/-- Concrete file-store fixture for evaluating the export at an input:
one resource (`res1`) with one datum, whose copy step yields a single
(old, new) location pair. -/
def fsW : FS :=
  { resource_eid := fun _ => ⟨"res1", "SPEC", "path", []⟩,
    resource_uid := fun u => ⟨u, "SPEC", "path", []⟩,
    copy_files := fun u => [(u ++ "-old", u ++ "-new")],
    datum_gen := fun _ => [("dat1", [])] }

/-- Concrete one-run header fixture: one descriptor flagging `img` as
external, one event holding the reference id with a `filled` annotation. -/
def hdrW : XHeader :=
  { start := [("uid", Val.s "s1")],
    descriptors := [⟨"desc1", [("img", [("external", Val.s "FILESTORE:")])], []⟩],
    events := [⟨"ev1", "desc1", [("img", Val.s "eid1")], some [("img", false)], []⟩],
    stop := [("uid", Val.s "p1")] }

/-! ## Theorems -/

/-! ### Run Locator -/

theorem pull_nth_spec (n : Nat) :
    ∀ (gen : List RunStart) (i : Nat), 1 ≤ n →
      ((gen.length < n → pull_nth gen i n = .error (.indexError (i + gen.length))) ∧
       (∀ r, gen.get? (n - 1) = some r → pull_nth gen i n = .ok r)) := by
  induction n using Nat.strong_induction_on with
  | _ n ih =>
    intro gen i hn
    rcases n with _ | n1
    · omega
    rcases n1 with _ | m
    · cases gen with
      | nil => simp [pull_nth]
      | cons r rest => simp [pull_nth]
    · cases gen with
      | nil => simp [pull_nth]
      | cons x rest =>
        have hstep : pull_nth (x :: rest) i (m + 2) = pull_nth rest (i + 1) (m + 1) := rfl
        have h := ih (m + 1) (by omega) rest (i + 1) (by omega)
        constructor
        · intro hlen
          have hl : rest.length < m + 1 := by simpa using hlen
          rw [hstep, h.1 hl]
          simp
          omega
        · intro r hr
          have hr' : rest.get? (m + 1 - 1) = some r := by simpa using hr
          rw [hstep, h.2 r hr']

/-- C6: for every negative integer key `n`, `search` returns the Header of
the `|n|`-th most recent run when at least `|n|` runs exist, and fails with
an `IndexError` reporting the number of runs that actually exist when fewer
are available. -/
theorem search_integral_negative_spec (mds : MDS) (key : Int) (hneg : key < 0) :
    (mds.runs.length < (-key).toNat →
        search_integral key mds = .error (.indexError mds.runs.length)) ∧
    (∀ r, mds.runs.get? ((-key).toNat - 1) = some r →
        search_integral key mds = .ok (Header.from_run_start r)) := by
  have hk : ¬ key > -1 := by omega
  have hn1 : 1 ≤ (-key).toNat := by omega
  have hspec := pull_nth_spec (-key).toNat (mds.find_last (-key).toNat) 0 hn1
  constructor
  · intro hlen
    have hl : (mds.find_last (-key).toNat).length < (-key).toNat := by
      simp [MDS.find_last]
      omega
    have hl2 : (mds.find_last (-key).toNat).length = mds.runs.length := by
      simp [MDS.find_last]
      omega
    simp only [search_integral, hk, if_false]
    rw [hspec.1 hl, hl2]
    simp
  · intro r hr
    have hlt : (-key).toNat - 1 < (-key).toNat := by omega
    have hr' : (mds.find_last (-key).toNat).get? ((-key).toNat - 1) = some r := by
      rw [MDS.find_last, List.get?_eq_getElem?, List.getElem?_take_of_lt hlt,
          ← List.get?_eq_getElem?]
      exact hr
    simp only [search_integral, hk, if_false]
    rw [hspec.2 r hr']

/-- Witness for C6 at a concrete store of two runs: `-2` resolves to the 2nd
most recent run, `-3` fails reporting that only 2 runs exist. -/
theorem search_integral_negative_spec_witness :
    search_integral (-2) ⟨[⟨"r1", 1⟩, ⟨"r2", 2⟩]⟩ = .ok (Header.from_run_start ⟨"r2", 2⟩) ∧
    search_integral (-3) ⟨[⟨"r1", 1⟩, ⟨"r2", 2⟩]⟩ = .error (.indexError 2) := by
  constructor
  · exact (search_integral_negative_spec ⟨[⟨"r1", 1⟩, ⟨"r2", 2⟩]⟩ (-2) (by decide)).2
      ⟨"r2", 2⟩ (by decide)
  · exact (search_integral_negative_spec ⟨[⟨"r1", 1⟩, ⟨"r2", 2⟩]⟩ (-3) (by decide)).1
      (by decide)

/-- C5: range keys.  A `None` start always fails with a `ValueError`; a
non-negative start always fails with the `ValueError` naming `key.start`;
a valid negative start fetches the `|start|` most recent runs in
most-recent-first order and applies ordinary (Python) slice semantics with
the normalized stop and the step to that list, materializing Headers; and
`slice(-5, 0)` on a store with at least 5 runs yields exactly 5 Headers. -/
theorem search_slice_spec :
    (∀ (mds : MDS) (stp step : Option Int),
        ∃ e, search_slice ⟨none, stp, step⟩ mds = .error e ∧
          (e = .sliceStartNone ∨ ∃ t, e = .sliceStopPositive t)) ∧
    (∀ (mds : MDS) (s : Int) (stp step : Option Int), 0 ≤ s →
        search_slice ⟨some s, stp, step⟩ mds = .error (.sliceStartNonNegative s)) ∧
    (∀ (mds : MDS) (n : Nat) (stp step : Option Int), 0 < n →
        (∀ t, stp = some t → t ≤ 0) →
        search_slice ⟨some (-(n : Int)), stp, step⟩ mds =
          (pySliceFrom (stp.map (fun t => (-t).toNat)) step (mds.find_last n)).map
            (List.map Header.from_run_start)) ∧
    (∀ mds : MDS, 5 ≤ mds.runs.length →
        ∃ hs, search_slice ⟨some (-5), some 0, none⟩ mds = .ok hs ∧ hs.length = 5) := by
  refine ⟨?_, ?_, ?_, ?_⟩
  · intro mds stp step
    rcases stp with _ | t
    · exact ⟨.sliceStartNone, by simp [search_slice], .inl rfl⟩
    · by_cases ht : t > 0
      · exact ⟨.sliceStopPositive t, by simp [search_slice, ht], .inr ⟨t, rfl⟩⟩
      · exact ⟨.sliceStartNone, by simp [search_slice, ht], .inl rfl⟩
  · intro mds s stp step hs
    have h1 : s > -1 := by omega
    simp [search_slice, h1]
  · intro mds n stp step hn hstop
    have h0 : ¬ (n = 0) := by omega
    have h3 : (-(-(n : Int))).toNat = n := by
      rw [neg_neg]
      exact Int.toNat_natCast n
    rcases stp with _ | t
    · simp [search_slice, h3, h0]
    · have ht' : ¬ (0 < t) := by
        have ht := hstop t rfl
        omega
      simp [search_slice, h3, h0, ht']
  · intro mds h5
    refine ⟨(mds.runs.take 5).map Header.from_run_start, rfl, ?_⟩
    simp [List.length_take]
    omega

/-- Witness for C5 at concrete stores: a `None` start fails, `start = 2`
fails naming the field, a valid `slice(-2, -1)` resolves through the slice
semantics, and `slice(-5, 0)` on a 5-run store yields 5 Headers. -/
theorem search_slice_spec_witness :
    (∃ e, search_slice ⟨none, none, none⟩ ⟨[⟨"a", 0⟩]⟩ = .error e ∧
      (e = .sliceStartNone ∨ ∃ t, e = .sliceStopPositive t)) ∧
    search_slice ⟨some 2, none, none⟩ ⟨[⟨"a", 0⟩]⟩ =
      .error (.sliceStartNonNegative 2) ∧
    search_slice ⟨some (-((2 : Nat) : Int)), some (-1), none⟩
        ⟨[⟨"a", 0⟩, ⟨"b", 1⟩, ⟨"c", 2⟩]⟩ =
      (pySliceFrom (some 1) none ((⟨[⟨"a", 0⟩, ⟨"b", 1⟩, ⟨"c", 2⟩]⟩ : MDS).find_last 2)).map
        (List.map Header.from_run_start) ∧
    (∃ hs, search_slice ⟨some (-5), some 0, none⟩
        ⟨[⟨"a", 0⟩, ⟨"b", 1⟩, ⟨"c", 2⟩, ⟨"d", 3⟩, ⟨"e", 4⟩]⟩ = .ok hs ∧ hs.length = 5) := by
  refine ⟨?_, ?_, ?_, ?_⟩
  · exact search_slice_spec.1 ⟨[⟨"a", 0⟩]⟩ none none
  · exact search_slice_spec.2.1 ⟨[⟨"a", 0⟩]⟩ 2 none none (by decide)
  · exact search_slice_spec.2.2.1 ⟨[⟨"a", 0⟩, ⟨"b", 1⟩, ⟨"c", 2⟩]⟩ 2 (some (-1)) none
      (by decide) (by intro t ht; cases ht; decide)
  · exact search_slice_spec.2.2.2 ⟨[⟨"a", 0⟩, ⟨"b", 1⟩, ⟨"c", 2⟩, ⟨"d", 3⟩, ⟨"e", 4⟩]⟩
      (by decide)

/-- C7: string keys.  With `strMatches` the matches claim C7 describes
(exact uid matches when the key has the canonical length 36 and any exist,
otherwise matches of the key as a leading identifier fragment): zero
matches fail with the not-found `ValueError`, two or more fail with the
`ValueError` carrying the match count, and exactly one resolves to that
run's Header. -/
theorem search_str_spec (key : String) (mds : MDS) :
    (strMatches key mds = [] → search_str key mds = .error (.noSuchRun key)) ∧
    (∀ r, strMatches key mds = [r] →
        search_str key mds = .ok (Header.from_run_start r)) ∧
    (2 ≤ (strMatches key mds).length →
        search_str key mds = .error (.ambiguous key (strMatches key mds).length)) := by
  have key_eq : search_str key mds =
      (if strMatches key mds = [] then .error (.noSuchRun key)
       else if 1 < (strMatches key mds).length then
         .error (.ambiguous key (strMatches key mds).length)
       else
         match strMatches key mds with
         | [r] => .ok (Header.from_run_start r)
         | _ => .error .unpackFailed) := rfl
  refine ⟨?_, ?_, ?_⟩
  · intro h
    simp [key_eq, h]
  · intro r h
    simp [key_eq, h]
  · intro h2
    have hne : strMatches key mds ≠ [] := by
      intro hh
      rw [hh] at h2
      simp at h2
    have h1 : 1 < (strMatches key mds).length := by omega
    simp [key_eq, hne, h1]

/-- Witness for C7 at concrete stores: a unique leading-fragment match
resolves, an ambiguous fragment fails with the count 2, and an unknown key
fails with not-found. -/
theorem search_str_spec_witness :
    search_str "ab" ⟨[⟨"abc-123", 1⟩]⟩ =
      .ok (Header.from_run_start ⟨"abc-123", 1⟩) ∧
    search_str "abc" ⟨[⟨"abc-1", 1⟩, ⟨"abc-2", 2⟩]⟩ =
      .error (.ambiguous "abc" 2) ∧
    search_str "zz" ⟨[⟨"abc-123", 1⟩]⟩ = .error (.noSuchRun "zz") := by
  refine ⟨?_, ?_, ?_⟩
  · exact (search_str_spec "ab" ⟨[⟨"abc-123", 1⟩]⟩).2.1 ⟨"abc-123", 1⟩ (by decide)
  · exact (search_str_spec "abc" ⟨[⟨"abc-1", 1⟩, ⟨"abc-2", 2⟩]⟩).2.2 (by decide)
  · exact (search_str_spec "zz" ⟨[⟨"abc-123", 1⟩]⟩).1 (by decide)

/-! ### Stream Map Operator -/

/-- C4: on a source stream Start, Descriptor named "primary", three Events
of that descriptor, Stop, the operator with a total transform emits exactly
one Start (whose `parents` holds the source Start uid), one Descriptor,
three Events in order with field `x` replaced by `f` of its value, and one
Stop with `exit_status = success`; no error is raised. -/
theorem event_map_primary_run (su du eu1 eu2 eu3 pu : String)
    (sr dr ts1 ts2 ts3 r1 r2 r3 pr : Dict Val) (sch : Dict Val)
    (dkcfg : Dict (Dict Val)) (prov : Dict Val)
    (f : Val → Except String Val) (v1 v2 v3 w1 w2 w3 : Val)
    (hf1 : f v1 = .ok w1) (hf2 : f v2 = .ok w2) (hf3 : f v3 = .ok w3) :
    event_map "primary" dkcfg prov f
      [.start ⟨su, sr⟩,
       .descriptor ⟨du, some "primary", [("x", sch)], dr⟩,
       .event ⟨eu1, some du, [("x", v1)], ts1, r1⟩,
       .event ⟨eu2, some du, [("x", v2)], ts2, r2⟩,
       .event ⟨eu3, some du, [("x", v3)], ts3, r3⟩,
       .stop ⟨pu, pr⟩] =
    ([.start (fresh 0) now [su] prov,
      .descriptor (fresh 1) now (fresh 0) [("x", Dict.update sch sch)] "primary",
      .event ⟨fresh 2, some (fresh 1), [("x", w1)], ts1, r1⟩,
      .event ⟨fresh 3, some (fresh 1), [("x", w2)], ts2, r2⟩,
      .event ⟨fresh 4, some (fresh 1), [("x", w3)], ts3, r3⟩,
      .stop (fresh 5) now (fresh 0) "success"], none) := by
  simp [event_map, EMState.init, emRun, emStep, emTry, transformAll,
    Dict.get?, Dict.insert, hf1, hf2, hf3]

/-- Witness for C4 with the identity transform on three numeric values. -/
theorem event_map_primary_run_witness :
    event_map "primary" [("x", [])] [] (fun v => .ok v)
      [.start ⟨"s0", []⟩,
       .descriptor ⟨"d0", some "primary", [("x", [])], []⟩,
       .event ⟨"e1", some "d0", [("x", Val.n 1)], [], []⟩,
       .event ⟨"e2", some "d0", [("x", Val.n 2)], [], []⟩,
       .event ⟨"e3", some "d0", [("x", Val.n 3)], [], []⟩,
       .stop ⟨"p0", []⟩] =
    ([.start (fresh 0) now ["s0"] [],
      .descriptor (fresh 1) now (fresh 0) [("x", Dict.update [] [])] "primary",
      .event ⟨fresh 2, some (fresh 1), [("x", Val.n 1)], [], []⟩,
      .event ⟨fresh 3, some (fresh 1), [("x", Val.n 2)], [], []⟩,
      .event ⟨fresh 4, some (fresh 1), [("x", Val.n 3)], [], []⟩,
      .stop (fresh 5) now (fresh 0) "success"], none) :=
  event_map_primary_run "s0" "d0" "e1" "e2" "e3" "p0" [] [] [] [] [] [] [] [] []
    [] [("x", [])] [] (fun v => .ok v) (Val.n 1) (Val.n 2) (Val.n 3)
    (Val.n 1) (Val.n 2) (Val.n 3) rfl rfl rfl

/-- C3: when the transform computation fails while processing an Event
matching the active descriptor, the operator emits exactly one Stop for the
derived run with `exit_status = failure` and re-raises the original
exception; nothing after that failure Stop is emitted, whatever else the
stream still holds. -/
theorem event_map_failure_stop (sn : String) (prov : Dict Val)
    (f : Val → Except String Val) (st : EMState) (ev : EvDoc)
    (rest : List InDoc) (u d nd : String) (ndk : Dict (Dict Val)) (msg : String)
    (hrs : st.runStartUid = some u)
    (hd : st.descriptorUid = some d)
    (hev : ev.descriptor = some d)
    (hnd : st.newDescriptorUid = some nd)
    (hdk : st.newDataKeys = some ndk)
    (hfail : transformAll f ndk ev.data = .error msg) :
    emRun sn prov f st (.event ev :: rest) =
      ([.stop (fresh (st.ctr + 1)) now u "failure"],
       some (.transformRaised msg)) := by
  simp [emRun, emStep, emTry, hrs, hd, hev, hnd, hdk, hfail]

/-- Witness for C3: a transform that always raises, applied to a matching
event from a state with an active derived run and descriptor. -/
theorem event_map_failure_stop_witness :
    emRun "primary" [] (fun _ => .error "boom")
      ⟨some "ru", some "d0", some "nd0", some [("x", [])], 7⟩
      [.event ⟨"e1", some "d0", [("x", Val.n 3)], [], []⟩,
       .event ⟨"e2", some "d0", [("x", Val.n 4)], [], []⟩] =
      ([.stop (fresh 8) now "ru" "failure"], some (.transformRaised "boom")) :=
  event_map_failure_stop "primary" [] (fun _ => .error "boom")
    ⟨some "ru", some "d0", some "nd0", some [("x", [])], 7⟩
    ⟨"e1", some "d0", [("x", Val.n 3)], [], []⟩
    [.event ⟨"e2", some "d0", [("x", Val.n 4)], [], []⟩]
    "ru" "d0" "nd0" [("x", [])] "boom" rfl rfl rfl rfl rfl rfl

theorem emStep_inv (sn : String) (prov : Dict Val) (f : Val → Except String Val)
    (st : EMState) (d : InDoc) (outs : List OutDoc) (st' : EMState)
    (h : emStep sn prov f st d = .ok (outs, st')) (hinv : EMInv st) : EMInv st' := by
  cases d with
  | start s =>
    simp [emStep] at h
    obtain ⟨-, h2⟩ := h
    subst h2
    intro hh
    simp at hh
  | descriptor dd =>
    by_cases hn : dd.name = some sn
    · rcases hst : st.runStartUid with _ | ru
      · simp [emStep, hn, hst] at h
      · simp [emStep, hn, hst] at h
        obtain ⟨-, h2⟩ := h
        subst h2
        intro hh
        simp [hst] at hh
    · simp [emStep, hn] at h
      obtain ⟨-, h2⟩ := h
      subst h2
      exact hinv
  | event ev =>
    rcases hdsc : ev.descriptor with _ | dsc
    · simp [emStep, hdsc] at h
    · by_cases hmatch : st.descriptorUid = some dsc
      · rcases hst : st.runStartUid with _ | ru
        · simp [emStep, hdsc, hmatch, hst] at h
        · rcases htry : emTry f st ev with msg | ne
          · simp [emStep, hdsc, hmatch, hst, htry] at h
          · simp [emStep, hdsc, hmatch, hst, htry] at h
            obtain ⟨-, h2⟩ := h
            subst h2
            intro hh
            simp [hst] at hh
      · simp [emStep, hdsc, hmatch] at h
        obtain ⟨-, h2⟩ := h
        subst h2
        exact hinv
  | stop sd =>
    rcases hst : st.runStartUid with _ | ru
    · simp [emStep, hst] at h
    · simp [emStep, hst] at h
      obtain ⟨-, h2⟩ := h
      subst h2
      intro _
      rfl
  | other nm dd =>
    simp [emStep] at h
    obtain ⟨-, h2⟩ := h
    subst h2
    exact hinv

theorem emStep_err_not_eventBeforeStart (sn : String) (prov : Dict Val)
    (f : Val → Except String Val) (st : EMState) (d : InDoc)
    (outs : List OutDoc) (e : EMErr)
    (h : emStep sn prov f st d = .error (outs, e)) (hinv : EMInv st)
    (hb : ∀ ev : EvDoc, d = .event ev → ev.descriptor.isSome) :
    e ≠ EMErr.eventBeforeStart := by
  cases d with
  | start s => simp [emStep] at h
  | descriptor dd =>
    by_cases hn : dd.name = some sn
    · rcases hst : st.runStartUid with _ | ru
      · simp [emStep, hn, hst] at h
        obtain ⟨-, h2⟩ := h
        subst h2
        simp
      · simp [emStep, hn, hst] at h
    · simp [emStep, hn] at h
  | event ev =>
    rcases hdsc : ev.descriptor with _ | dsc
    · have := hb ev rfl
      simp [hdsc] at this
    · by_cases hmatch : st.descriptorUid = some dsc
      · rcases hst : st.runStartUid with _ | ru
        · exact absurd hmatch (by simp [hinv hst])
        · rcases htry : emTry f st ev with msg | ne
          · simp [emStep, hdsc, hmatch, hst, htry] at h
            obtain ⟨-, h2⟩ := h
            subst h2
            simp
          · simp [emStep, hdsc, hmatch, hst, htry] at h
      · simp [emStep, hdsc, hmatch] at h
  | stop sd =>
    rcases hst : st.runStartUid with _ | ru
    · simp [emStep, hst] at h
      obtain ⟨-, h2⟩ := h
      subst h2
      simp
    · simp [emStep, hst] at h
  | other nm dd => simp [emStep] at h

theorem emRun_no_eventBeforeStart (sn : String) (prov : Dict Val)
    (f : Val → Except String Val) :
    ∀ (stream : List InDoc) (st : EMState), EMInv st →
      eventsHaveDescriptors stream →
      (emRun sn prov f st stream).2 ≠ some EMErr.eventBeforeStart := by
  intro stream
  induction stream with
  | nil =>
    intro st _ _
    simp [emRun]
  | cons d ds ih =>
    intro st hinv hbound
    have hbd : ∀ ev : EvDoc, d = .event ev → ev.descriptor.isSome := by
      intro ev hev
      exact hbound ev (by simp [hev])
    have hbound' : eventsHaveDescriptors ds := by
      intro ev hm
      exact hbound ev (by simp [hm])
    rcases hstep : emStep sn prov f st d with ⟨outs, e⟩ | ⟨outs, st'⟩
    · simp [emRun, hstep]
      exact emStep_err_not_eventBeforeStart sn prov f st d outs e hstep hinv hbd
    · simp [emRun, hstep]
      exact ih st' (emStep_inv sn prov f st d outs st' hstep hinv) hbound'

/-- C9: for every input stream in which each Event document actually
carries a descriptor reference, the "Received Event before RunStart" branch
of `event_map` is unreachable; moreover from any state satisfying the
operator's invariant (no active run implies no remembered descriptor), an
Event arriving while no run is active is silently dropped: no output, no
state change, no exception. -/
theorem event_map_no_event_before_start (sn : String) (dk : Dict (Dict Val))
    (prov : Dict Val) (f : Val → Except String Val) (stream : List InDoc)
    (hb : eventsHaveDescriptors stream) :
    (event_map sn dk prov f stream).2 ≠ some EMErr.eventBeforeStart ∧
    (∀ (st : EMState) (ev : EvDoc) (dsc : String), EMInv st →
        st.runStartUid = none → ev.descriptor = some dsc →
        emStep sn prov f st (.event ev) = .ok ([], st)) := by
  constructor
  · exact emRun_no_eventBeforeStart sn prov f stream EMState.init
      (fun _ => rfl) hb
  · intro st ev dsc hinv hnone hdsc
    have hdu : st.descriptorUid = none := hinv hnone
    simp [emStep, hdsc, hdu]

/-- Witness for C9: a stream that begins with an Event (all events carrying
descriptor uids) does not hit the event-before-start error. -/
theorem event_map_no_event_before_start_witness :
    (event_map "primary" [] [] (fun v => .ok v)
        [.event ⟨"e0", some "d0", [], [], []⟩,
         .start ⟨"s0", []⟩]).2 ≠ some EMErr.eventBeforeStart :=
  (event_map_no_event_before_start "primary" [] [] (fun v => .ok v)
      [.event ⟨"e0", some "d0", [], [], []⟩, .start ⟨"s0", []⟩]
      (by
        intro ev hm
        simp [eventsHaveDescriptors] at hm
        rcases hm with hm
        subst hm
        rfl)).1

theorem refOk_emRun (sn : String) (prov : Dict Val) (f : Val → Except String Val) :
    ∀ (stream : List InDoc) (st : EMState) (ls ld : Option String),
      (∀ u, st.runStartUid = some u → ls = some u) →
      st.newDescriptorUid = ld →
      refOk ls ld (emRun sn prov f st stream).1 = true := by
  intro stream
  induction stream with
  | nil =>
    intro st ls ld h1 h2
    simp [emRun, refOk]
  | cons d ds ih =>
    intro st ls ld h1 h2
    cases d with
    | start s =>
      simp [emRun, emStep, refOk]
      refine ih _ (some (fresh st.ctr)) ld ?_ ?_
      · intro u hu
        simp at hu
        rw [hu]
      · exact h2
    | descriptor dd =>
      by_cases hn : dd.name = some sn
      · rcases hst : st.runStartUid with _ | ru
        · simp [emRun, emStep, hn, hst, refOk]
        · have hls : ls = some ru := h1 ru hst
          subst hls
          simp [emRun, emStep, hn, hst, refOk]
          refine ih _ (some ru) (some (fresh st.ctr)) ?_ ?_
          · intro u hu
            simp [hst] at hu
            rw [hu]
          · rfl
      · simp [emRun, emStep, hn]
        exact ih st ls ld h1 h2
    | event ev =>
      rcases hdsc : ev.descriptor with _ | dsc
      · simp [emRun, emStep, hdsc, refOk]
      · by_cases hmatch : st.descriptorUid = some dsc
        · rcases hst : st.runStartUid with _ | ru
          · simp [emRun, emStep, hdsc, hmatch, hst, refOk]
          · have hls : ls = some ru := h1 ru hst
            subst hls
            rcases hnd : st.newDescriptorUid with _ | nd
            · simp [emRun, emStep, emTry, hdsc, hmatch, hst, hnd, refOk]
            · rcases hdk2 : st.newDataKeys with _ | ndk
              · simp [emRun, emStep, emTry, hdsc, hmatch, hst, hnd, hdk2, refOk]
              · rcases htr : transformAll f ndk ev.data with msg | ndata
                · simp [emRun, emStep, emTry, hdsc, hmatch, hst, hnd, hdk2, htr,
                    refOk]
                · rw [hnd] at h2
                  subst h2
                  simp [emRun, emStep, emTry, hdsc, hmatch, hst, hnd, hdk2, htr,
                    refOk]
                  refine ih _ (some ru) (some nd) ?_ ?_
                  · intro u hu
                    simp [hst] at hu
                    rw [hu]
                  · rfl
        · simp [emRun, emStep, hdsc, hmatch]
          exact ih st ls ld h1 h2
    | stop sd =>
      rcases hst : st.runStartUid with _ | ru
      · simp [emRun, emStep, hst, refOk]
      · have hls : ls = some ru := h1 ru hst
        subst hls
        simp [emRun, emStep, hst, refOk]
        refine ih _ (some ru) ld ?_ ?_
        · intro u hu
          simp at hu
        · exact h2
    | other nm dd =>
      simp [emRun, emStep]
      exact ih st ls ld h1 h2

/-- C10: every stream `event_map` emits preserves referential integrity:
each emitted Descriptor and Stop references the uid of the most recently
emitted Start, and each emitted Event references the uid of the most
recently emitted Descriptor. -/
theorem event_map_referential_integrity (sn : String) (dk : Dict (Dict Val))
    (prov : Dict Val) (f : Val → Except String Val) (stream : List InDoc) :
    refOk none none (event_map sn dk prov f stream).1 = true :=
  refOk_emRun sn prov f stream EMState.init none none
    (fun u hu => by simp [EMState.init] at hu) rfl

/-- C2 (claim refuted — code bug): configured with the schema-update
fragment `shape: 10x10` for field `x`, the operator emits the Descriptor
with the ORIGINAL `data_keys` — the configured fragment is never merged
(the source updates each original schema with itself and never reads its
`data_keys` parameter) — while the merge the claim and the source's own
docstring describe would have added the fragment. -/
theorem event_map_ignores_schema_updates :
    (event_map "primary" [("x", [("shape", Val.s "10x10")])] [] (fun v => .ok v)
        [.start ⟨"src-start", []⟩,
         .descriptor ⟨"src-desc", some "primary",
           [("x", [("dtype", Val.s "number")])], []⟩]).1 =
      [.start (fresh 0) now ["src-start"] [],
       .descriptor (fresh 1) now (fresh 0)
         [("x", [("dtype", Val.s "number")])] "primary"] ∧
    specMergeDataKeys [("x", [("shape", Val.s "10x10")])]
        [("x", [("dtype", Val.s "number")])] =
      [("x", [("dtype", Val.s "number"), ("shape", Val.s "10x10")])] ∧
    ([("x", [("dtype", Val.s "number")])] : Dict (Dict Val)) ≠
      [("x", [("dtype", Val.s "number"), ("shape", Val.s "10x10")])] := by
  refine ⟨by decide, by decide, by decide⟩

/-! ### External Store Interceptor -/

/-- C1 (claim refuted — code bug): running a Start followed by a Descriptor
with a configured external field `img` through `store_dec`, the EMITTED
descriptor carries `external = FILESTORE:` inside `data_keys.img` — the
shallow `dict(doc)` copy shares the nested schema dicts, so the annotation
meant for the persisted copy lands on the emitted copy too — contradicting
the claim that the emitted pair is identical to the input (and its
descriptor unannotated). -/
theorem store_dec_annotates_emitted_descriptor :
    (store_dec ["img"]
        [("start", ⟨[], [], none, []⟩),
         ("descriptor", ⟨[("img", [("dtype", Val.s "array")])], [], none, []⟩)]).emitted =
      [("start", ⟨[], [], none, []⟩),
       ("descriptor",
        ⟨[("img", [("dtype", Val.s "array"), ("external", Val.s "FILESTORE:")])],
         [], none, []⟩)] ∧
    (⟨[("img", [("dtype", Val.s "array"), ("external", Val.s "FILESTORE:")])],
        [], none, []⟩ : SDDoc) ≠
      ⟨[("img", [("dtype", Val.s "array")])], [], none, []⟩ := by
  refine ⟨by decide, by decide⟩

/-! ### Run Replicator: bulk export -/

theorem broker_export_pairs (fs : FS) (headers : List XHeader) :
    (broker_export fs headers).2.2 =
      headers.flatMap (fun h => (get_resource_uids fs h).flatMap fs.copy_files) := by
  induction headers with
  | nil => rfl
  | cons h t ih =>
    simp only [broker_export, List.flatMap_cons, ih]
    rfl

theorem broker_export_log (fs : FS) (headers : List XHeader) :
    (broker_export fs headers).1 =
      headers.flatMap (fun h => (exportHeader fs h).1) := by
  induction headers with
  | nil => rfl
  | cons h t ih =>
    simp only [broker_export, List.flatMap_cons, ih]

/-- C8: for every sequence of source Headers (well-formed in that a header
without descriptors has no events), the bulk export inserts, per header,
its Start, every Descriptor, every Event with the `filled` annotation
removed, and its Stop into the destination metadata store (the per-header
insertions are a permutation of exactly that collection), and it returns
the `copy_files` (old location, new location) pairs concatenated over all
copied Resources of all exported Headers. -/
theorem export_spec (fs : FS) (headers : List XHeader)
    (hwf : ∀ h ∈ headers, h.descriptors = [] → h.events = []) :
    (broker_export fs headers).2.2 =
      headers.flatMap (fun h => (get_resource_uids fs h).flatMap fs.copy_files) ∧
    (broker_export fs headers).1 =
      headers.flatMap (fun h => (exportHeader fs h).1) ∧
    ∀ h ∈ headers, (exportHeader fs h).1.Perm
      (MdsIns.run_start h.start ::
        (h.descriptors.map MdsIns.descriptor ++
         h.events.map (fun e => MdsIns.event (stripFilled e)) ++
         [MdsIns.run_stop h.stop])) := by
  refine ⟨broker_export_pairs fs headers, broker_export_log fs headers, ?_⟩
  intro h hm
  rcases hd : h.descriptors with _ | ⟨d, ds⟩
  · have he : h.events = [] := hwf h hm hd
    simp [exportHeader, hd, he]
  · simp only [exportHeader, hd, List.map_cons]
    refine List.Perm.cons _ (List.Perm.cons _ ?_)
    have hp := (@List.perm_append_comm _
        (h.events.map (fun e => MdsIns.event (stripFilled e)))
        (ds.map MdsIns.descriptor)).append_right [MdsIns.run_stop h.stop]
    simpa [List.append_assoc] using hp

/-- Witness for C8: the export of one concrete header through the concrete
file store returns the copy pairs of its single referenced resource. -/
theorem export_spec_witness :
    (broker_export fsW [hdrW]).2.2 =
      [hdrW].flatMap (fun h => (get_resource_uids fsW h).flatMap fsW.copy_files) :=
  (export_spec fsW [hdrW] (by
    intro h hm
    simp at hm
    subst hm
    intro hd
    simp [hdrW] at hd)).1
